import Mathlib

/-!
Verification of the KEDA scaling decision engine specification.

The engine components (Scaler Cache, Poll Loop, Aggregator, Fallback
Policy, Query Interface) are modelled from the design specification;
the Azure queue-length reader and the CloudWatch scaler behaviour are
embedded from the repository source under pkg/scalers.

Metric values (float64 in the source) are modelled as integers: every
property at stake (maximum, comparison with zero, clamping,
propagation of errors) is order-theoretic and exact, never dependent
on rounding.
-/

namespace Keda

/-- One per-trigger result handed to the Aggregator: the trigger's
name, its normalized value, its activity flag, and whether the
Fallback Policy substituted it. -/
structure TriggerResult where
  name : String
  value : Int
  isActive : Bool
  usedFallback : Bool
  deriving Repr, DecidableEq

/-- Modelled from the spec: the Aggregator's `OR` combination strategy
(engine source absent from the repository excerpt). A single
left-to-right pass over the ordered per-trigger results carries the
running aggregate: an active trigger raises the aggregate to the
maximum of itself and the trigger's value and switches the activity
flag on; an inactive trigger leaves the accumulator untouched. The
accumulator starts at value 0, inactive. -/
def aggregateOR (results : List TriggerResult) : Int × Bool :=
  results.foldl
    (fun acc r => if r.isActive then (max acc.1 r.value, true) else acc)
    (0, false)

theorem aggregateOR_snd (results : List TriggerResult) :
    ∀ acc : Int × Bool,
      (results.foldl
        (fun acc r => if r.isActive then (max acc.1 r.value, true) else acc)
        acc).2 = (acc.2 || results.any (·.isActive)) := by
  induction results with
  | nil => intro acc; simp
  | cons r rs ih =>
      intro acc
      by_cases hr : r.isActive <;> simp [List.foldl_cons, hr, ih]

theorem aggregateOR_fst (results : List TriggerResult) :
    ∀ acc : Int × Bool,
      (results.foldl
        (fun acc r => if r.isActive then (max acc.1 r.value, true) else acc)
        acc).1 =
      ((results.filter (·.isActive)).map (·.value)).foldl max acc.1 := by
  induction results with
  | nil => intro acc; simp
  | cons r rs ih =>
      intro acc
      by_cases hr : r.isActive <;>
        simp [List.foldl_cons, hr, List.filter_cons, ih]

theorem foldl_max_base_le (l : List Int) : ∀ b : Int, b ≤ l.foldl max b := by
  induction l with
  | nil => intro b; simp
  | cons y ys ih =>
      intro b
      exact le_trans (le_max_left b y) (ih (max b y))

theorem foldl_max_le (l : List Int) :
    ∀ b x, x ∈ l → x ≤ l.foldl max b := by
  induction l with
  | nil => intro b x hx; cases hx
  | cons y ys ih =>
      intro b x hx
      rcases List.mem_cons.mp hx with h | h
      · subst h
        calc x ≤ max b x := le_max_right b x
        _ ≤ ys.foldl max (max b x) := foldl_max_base_le ys (max b x)
      · exact ih (max b y) x h

theorem foldl_max_mem (l : List Int) :
    ∀ b : Int, l.foldl max b = b ∨ l.foldl max b ∈ l := by
  induction l with
  | nil => intro b; left; rfl
  | cons y ys ih =>
      intro b
      rcases ih (max b y) with h | h
      · rcases max_cases b y with ⟨hm, _⟩ | ⟨hm, _⟩
        · left
          rw [List.foldl_cons, h, hm]
        · right
          rw [List.foldl_cons, h, hm]
          exact List.mem_cons_self y ys
      · right; exact List.mem_cons_of_mem y h

/-- C1: for the OR combination strategy, over every ordered list of
per-trigger results with non-negative normalized values (values reach
the Aggregator pre-normalized to implied replica counts, negatives
having been clamped beforehand), the decision is active iff at least
one trigger is active, every active trigger's value is bounded by the
aggregate, and the aggregate is attained by an active trigger (or is 0
when no trigger is active): the aggregate is exactly the maximum
normalized value across the active triggers. -/
theorem aggregateOR_or_semantics (results : List TriggerResult)
    (hpos : ∀ r ∈ results, 0 ≤ r.value) :
    ((aggregateOR results).2 = true ↔ ∃ r ∈ results, r.isActive = true)
    ∧ (∀ r ∈ results, r.isActive = true → r.value ≤ (aggregateOR results).1)
    ∧ ((∀ r ∈ results, r.isActive = false) → aggregateOR results = (0, false))
    ∧ ((∃ r ∈ results, r.isActive = true) →
        ∃ r ∈ results, r.isActive = true ∧ r.value = (aggregateOR results).1) := by
  have hsnd := aggregateOR_snd results (0, false)
  have hfst := aggregateOR_fst results (0, false)
  refine ⟨?_, ?_, ?_, ?_⟩
  · rw [aggregateOR, hsnd]
    simp [List.any_eq_true]
  · intro r hr hact
    rw [aggregateOR, hfst]
    exact foldl_max_le _ 0 r.value
      (List.mem_map.mpr ⟨r, List.mem_filter.mpr ⟨hr, by simp [hact]⟩, rfl⟩)
  · intro hall
    have h1 : (aggregateOR results).1 = 0 := by
      rw [aggregateOR, hfst]
      have : results.filter (·.isActive) = [] := by
        apply List.filter_eq_nil_iff.mpr
        intro r hr
        simp [hall r hr]
      simp [this]
    have h2 : (aggregateOR results).2 = false := by
      rw [aggregateOR, hsnd]
      simp only [Bool.false_or, List.any_eq_false]
      intro r hr
      simp [hall r hr]
    exact Prod.ext h1 h2
  · intro ⟨r0, hr0, hact0⟩
    rw [aggregateOR, hfst]
    rcases foldl_max_mem ((results.filter (·.isActive)).map (·.value)) 0 with h | h
    · refine ⟨r0, hr0, hact0, le_antisymm ?_ ?_⟩
      · rw [h]
        calc r0.value ≤ ((results.filter (·.isActive)).map (·.value)).foldl max 0 :=
              foldl_max_le _ 0 r0.value
                (List.mem_map.mpr ⟨r0, List.mem_filter.mpr ⟨hr0, by simp [hact0]⟩, rfl⟩)
        _ = 0 := h
      · rw [h]; exact hpos r0 hr0
    · rcases List.mem_map.mp h with ⟨r, hrf, hrv⟩
      rcases List.mem_filter.mp hrf with ⟨hrmem, hract⟩
      exact ⟨r, hrmem, by simpa using hract, hrv⟩

/-- Closed instance of the OR-strategy theorem at a concrete tick:
triggers (a, 3, active), (b, 7, active), (c, 9, inactive). -/
theorem aggregateOR_or_semantics_witness :
    (∀ r ∈ [TriggerResult.mk "a" 3 true false, TriggerResult.mk "b" 7 true false,
        TriggerResult.mk "c" 9 false false], 0 ≤ r.value)
    ∧ aggregateOR [TriggerResult.mk "a" 3 true false, TriggerResult.mk "b" 7 true false,
        TriggerResult.mk "c" 9 false false] = (7, true) :=
  ⟨by decide,
   by
    have h := aggregateOR_or_semantics
      [TriggerResult.mk "a" 3 true false, TriggerResult.mk "b" 7 true false,
        TriggerResult.mk "c" 9 false false] (by decide)
    have hub := h.2.1 (TriggerResult.mk "b" 7 true false) (by decide) rfl
    decide⟩

/-- Per-trigger, per-scaled-object failure bookkeeping: the
consecutive-failure counter and the last successful reading. -/
structure FailureState where
  consecutiveFailures : Nat
  lastGoodValue : Int
  lastGoodIsActive : Bool
  deriving Repr, DecidableEq

/-- The state a trigger starts in: no failures, no last-good reading. -/
def initFailureState : FailureState :=
  { consecutiveFailures := 0, lastGoodValue := 0, lastGoodIsActive := false }

/-- Modelled from the spec: a successful capability call resets the
trigger's FailureState and stores the fresh reading (Poll Loop source
absent from the repository excerpt). -/
def recordSuccess (v : Int) (a : Bool) : FailureState :=
  { consecutiveFailures := 0, lastGoodValue := v, lastGoodIsActive := a }

/-- Modelled from the spec: a failed capability call increments the
trigger's consecutive-failure counter. -/
def recordFailure (fs : FailureState) : FailureState :=
  { fs with consecutiveFailures := fs.consecutiveFailures + 1 }

/-- Modelled from the spec: the Fallback Policy is active only once
consecutiveFailures exceeds the configured threshold (strict
comparison). -/
def fallbackActive (fs : FailureState) (threshold : Nat) : Bool :=
  threshold < fs.consecutiveFailures

namespace FallbackPolicy

/-- Modelled from the spec: `Evaluate(failureState, threshold,
fallbackReplicas) → (substituteValue, substituteIsActive, used)`
(Fallback Policy source absent from the repository excerpt). While the
failure streak strictly exceeds the threshold it substitutes isActive
= true with the value pinned to the configured fallbackReplicas;
otherwise it passes the last-known-good reading through, unused. -/
def Evaluate (fs : FailureState) (threshold : Nat) (fallbackReplicas : Int) :
    Int × Bool × Bool :=
  if threshold < fs.consecutiveFailures then (fallbackReplicas, true, true)
  else (fs.lastGoodValue, fs.lastGoodIsActive, false)

end FallbackPolicy

/-- Outcome of one capability call in one tick. -/
inductive TickOutcome where
  | success (v : Int) (a : Bool)
  | failure
  deriving Repr, DecidableEq

/-- The FailureState after one tick's outcome. -/
def applyTick (fs : FailureState) : TickOutcome → FailureState
  | .success v a => recordSuccess v a
  | .failure => recordFailure fs

/-- The FailureState after a sequence of tick outcomes. -/
def applyTicks (fs : FailureState) (ts : List TickOutcome) : FailureState :=
  ts.foldl applyTick fs

/-- C2: fallback is active iff consecutiveFailures strictly exceeds
the threshold — exactly threshold consecutive failures leave it
inactive; a single success resets the counter to 0 and deactivates
fallback immediately; while active, Evaluate returns isActive = true
with the value pinned to fallbackReplicas. -/
theorem fallback_policy_spec (fs : FailureState) (threshold : Nat)
    (fb v : Int) (a : Bool) :
    (fallbackActive fs threshold = true ↔ threshold < fs.consecutiveFailures)
    ∧ (fs.consecutiveFailures = threshold → fallbackActive fs threshold = false)
    ∧ ((applyTick fs (.success v a)).consecutiveFailures = 0
        ∧ fallbackActive (applyTick fs (.success v a)) threshold = false)
    ∧ (fallbackActive fs threshold = true →
        FallbackPolicy.Evaluate fs threshold fb = (fb, true, true)) := by
  refine ⟨?_, ?_, ⟨rfl, ?_⟩, ?_⟩
  · simp [fallbackActive]
  · intro h
    simp [fallbackActive, h]
  · simp [fallbackActive, applyTick, recordSuccess]
  · intro h
    rw [fallbackActive, decide_eq_true_iff] at h
    simp [FallbackPolicy.Evaluate, h]

/-- Closed instance of the fallback theorem on the spec's concrete
scenario: threshold 3; three straight failures leave fallback
inactive, a fourth activates it with the value pinned to the
configured 5 fallback replicas, and one success resets the counter and
deactivates it. -/
theorem fallback_policy_spec_witness :
    ((applyTicks initFailureState [.failure, .failure, .failure]).consecutiveFailures = 3
      ∧ fallbackActive (applyTicks initFailureState [.failure, .failure, .failure]) 3 = false)
    ∧ (fallbackActive (applyTicks initFailureState
          [.failure, .failure, .failure, .failure]) 3 = true
        ∧ FallbackPolicy.Evaluate (applyTicks initFailureState
          [.failure, .failure, .failure, .failure]) 3 5 = (5, true, true))
    ∧ ((applyTicks initFailureState
          [.failure, .failure, .failure, .failure, .success 2 true]).consecutiveFailures = 0
        ∧ fallbackActive (applyTicks initFailureState
          [.failure, .failure, .failure, .failure, .success 2 true]) 3 = false) :=
  ⟨⟨by decide, by decide⟩,
   ⟨by decide,
    (fallback_policy_spec (applyTicks initFailureState
        [.failure, .failure, .failure, .failure]) 3 5 0 false).2.2.2 (by decide)⟩,
   ⟨by decide, by decide⟩⟩

/-- Modelled from the spec: before a trigger result reaches the
Aggregator, a negative reported value is treated as a fault — the
value is clamped to zero and the trigger's failure counter is
incremented for that tick (Poll Loop source absent from the repository
excerpt). -/
def sanitizeResult (r : TriggerResult) (fs : FailureState) :
    TriggerResult × FailureState :=
  if r.value < 0 then ({ r with value := 0 }, recordFailure fs) else (r, fs)

/-- Sanitization of a whole tick's results, each paired with its
trigger's FailureState. -/
def sanitizeAll (l : List (TriggerResult × FailureState)) :
    List (TriggerResult × FailureState) :=
  l.map (fun p => sanitizeResult p.1 p.2)

/-- C8: a negative reported value is clamped to zero and counted as a
failure; the sanitized result is independent of the negative
magnitude; every value reaching the Aggregator after sanitization is
non-negative, and the resulting aggregateValue is non-negative — a
negative reported value never contributes to it. -/
theorem negative_value_clamped_spec (r : TriggerResult) (fs : FailureState)
    (v w : Int) (l : List (TriggerResult × FailureState)) :
    (r.value < 0 →
      (sanitizeResult r fs).1.value = 0
      ∧ (sanitizeResult r fs).2.consecutiveFailures = fs.consecutiveFailures + 1)
    ∧ (v < 0 → w < 0 →
        sanitizeResult { r with value := v } fs = sanitizeResult { r with value := w } fs)
    ∧ (∀ p ∈ sanitizeAll l, 0 ≤ p.1.value)
    ∧ 0 ≤ (aggregateOR ((sanitizeAll l).map (·.1))).1 := by
  refine ⟨?_, ?_, ?_, ?_⟩
  · intro h
    simp [sanitizeResult, h, recordFailure]
  · intro hv hw
    simp [sanitizeResult, hv, hw]
  · intro p hp
    rcases List.mem_map.mp hp with ⟨q, _, hq⟩
    subst hq
    by_cases h : q.1.value < 0
    · simp [sanitizeResult, h]
    · simp [sanitizeResult, h]
      omega
  · rw [aggregateOR, aggregateOR_fst]
    exact foldl_max_base_le _ 0

/-- Closed instance of the clamping theorem at a concrete faulted
result: value −5 is clamped to 0 and counted as one failure. -/
theorem negative_value_clamped_spec_witness :
    (sanitizeResult (TriggerResult.mk "q" (-5) true false) initFailureState).1.value = 0
    ∧ (sanitizeResult (TriggerResult.mk "q" (-5) true false)
        initFailureState).2.consecutiveFailures = 1 :=
  (negative_value_clamped_spec (TriggerResult.mk "q" (-5) true false)
    initFailureState 0 0 []).1 (by decide)

/-- The reconciler-facing per-tick record: the decision's activity and
whether a scale-to-zero is recommended this tick. -/
structure TickRec where
  isActive : Bool
  scaleToZero : Bool
  deriving Repr, DecidableEq

/-- Modelled from the spec: the Poll Loop's cooldown gate (Poll Loop
source absent from the repository excerpt). The state is the start
time of the current continuous inactive streak (`none` while active).
An active tick discards the streak and reports activity immediately —
scale-up is never delayed. An inactive tick extends (or starts) the
streak, and recommends scale-to-zero exactly when minReplicaCount is 0
and the streak has lasted at least cooldownPeriodSeconds. -/
def cooldownStep (minReplicas cooldown : Nat) (s : Option Nat) (t : Nat) (a : Bool) :
    Option Nat × TickRec :=
  if a then (none, { isActive := true, scaleToZero := false })
  else
    let start := s.getD t
    if minReplicas = 0 ∧ cooldown ≤ t - start then
      (some start, { isActive := false, scaleToZero := true })
    else
      (some start, { isActive := false, scaleToZero := false })

/-- The cooldown state after processing a list of (time, isActive)
ticks. -/
def streakState (m c : Nat) (s : Option Nat) (ticks : List (Nat × Bool)) : Option Nat :=
  ticks.foldl (fun s p => (cooldownStep m c s p.1 p.2).1) s

/-- What the cooldown state means about the ticks processed so far:
when a streak start `t0` is recorded, some processed tick at time `t0`
was inactive and every processed tick at time `t0` or later was
inactive. -/
def StreakInv (pre : List (Nat × Bool)) : Option Nat → Prop
  | none => True
  | some t0 =>
      (∃ p ∈ pre, p.1 = t0 ∧ p.2 = false)
      ∧ ∀ p ∈ pre, t0 ≤ p.1 → p.2 = false

theorem streakInv_step (m c : Nat) (pre : List (Nat × Bool)) (s : Option Nat)
    (t : Nat) (a : Bool) (hinv : StreakInv pre s) (hlt : ∀ p ∈ pre, p.1 < t) :
    StreakInv (pre ++ [(t, a)]) (cooldownStep m c s t a).1 := by
  by_cases ha : a = true
  · simp [cooldownStep, ha, StreakInv]
  · rw [Bool.not_eq_true] at ha
    cases s with
    | none =>
        have hfst : (cooldownStep m c none t a).1 = some t := by
          simp only [cooldownStep, ha, if_false, Bool.false_eq_true, Option.getD_none]
          split <;> rfl
        rw [hfst]
        refine ⟨⟨(t, a), by simp, rfl, ha⟩, ?_⟩
        intro p hp _
        rcases List.mem_append.mp hp with h | h
        · exact absurd (hlt p h) (by omega)
        · simp at h
          rw [h, ha]
    | some t0 =>
        have hfst : (cooldownStep m c (some t0) t a).1 = some t0 := by
          simp only [cooldownStep, ha, if_false, Bool.false_eq_true, Option.getD_some]
          split <;> rfl
        rw [hfst]
        rcases hinv with ⟨⟨p0, hp0, hp0t, hp0f⟩, hall⟩
        refine ⟨⟨p0, List.mem_append_left _ hp0, hp0t, hp0f⟩, ?_⟩
        intro p hp hle
        rcases List.mem_append.mp hp with h | h
        · exact hall p h hle
        · simp at h
          rw [h, ha]

theorem streakInv_run (m c : Nat) (pre : List (Nat × Bool))
    (hpw : pre.Pairwise (fun p q => p.1 < q.1)) :
    StreakInv pre (streakState m c none pre) := by
  induction pre using List.reverseRecOn with
  | nil => trivial
  | append_singleton l p ih =>
      rcases List.pairwise_append.mp hpw with ⟨hl, _, hrel⟩
      have hstep : streakState m c none (l ++ [p]) =
          (cooldownStep m c (streakState m c none l) p.1 p.2).1 := by
        simp [streakState, List.foldl_append]
      rw [hstep]
      exact streakInv_step m c l _ p.1 p.2 (ih hl)
        (fun q hq => hrel q hq p (by simp))

/-- C3: over any strictly time-increasing tick sequence, processed
from the initial (no-streak) state: an active tick resets the inactive
streak and reports activity at once — scale-up is never gated by the
cooldown; and whenever a tick recommends scale-to-zero, minReplicaCount
is 0, the tick itself is inactive, and there is a streak start t0 at
which some tick was inactive, at least cooldownPeriodSeconds before
the current tick, with every tick from t0 onward inactive: the object
was continuously inactive for at least the cooldown window. -/
theorem cooldown_scale_to_zero_spec (m c : Nat) (pre post : List (Nat × Bool))
    (t : Nat) (a : Bool)
    (hinc : (pre ++ (t, a) :: post).Pairwise (fun p q => p.1 < q.1)) :
    (a = true → cooldownStep m c (streakState m c none pre) t a
        = (none, { isActive := true, scaleToZero := false }))
    ∧ ((cooldownStep m c (streakState m c none pre) t a).2.scaleToZero = true →
        m = 0 ∧ a = false
        ∧ ∃ t0, t0 ≤ t ∧ c ≤ t - t0
            ∧ (∃ p ∈ pre ++ [(t, a)], p.1 = t0 ∧ p.2 = false)
            ∧ (∀ p ∈ pre ++ [(t, a)], t0 ≤ p.1 → p.2 = false)) := by
  rcases List.pairwise_append.mp hinc with ⟨hpre, _, hrel⟩
  have hlt : ∀ q ∈ pre, q.1 < t :=
    fun q hq => hrel q hq (t, a) (List.mem_cons_self _ _)
  have hinv := streakInv_run m c pre hpre
  constructor
  · intro ha
    simp [cooldownStep, ha]
  · intro hemit
    by_cases ha : a = true
    · rw [ha] at hemit
      simp [cooldownStep] at hemit
    · rw [Bool.not_eq_true] at ha
      refine ⟨?_, ha, ?_⟩
      · rw [cooldownStep] at hemit
        simp only [ha, Bool.false_eq_true, if_false] at hemit
        split at hemit
        · next hcond => exact hcond.1
        · simp at hemit
      · cases hs : streakState m c none pre with
        | none =>
            rw [cooldownStep, hs] at hemit
            simp only [ha, Bool.false_eq_true, if_false, Option.getD_none] at hemit
            have hcond : m = 0 ∧ c ≤ t - t := by
              by_contra hc
              rw [if_neg hc] at hemit
              simp at hemit
            refine ⟨t, le_refl t, hcond.2, ⟨(t, a), by simp, rfl, ha⟩, ?_⟩
            intro p hp hle
            rcases List.mem_append.mp hp with h | h
            · exact absurd (hlt p h) (by omega)
            · simp at h
              rw [h, ha]
        | some t0 =>
            rw [cooldownStep, hs] at hemit
            simp only [ha, Bool.false_eq_true, if_false, Option.getD_some] at hemit
            have hcond : m = 0 ∧ c ≤ t - t0 := by
              by_contra hc
              rw [if_neg hc] at hemit
              simp at hemit
            rw [hs] at hinv
            rcases hinv with ⟨⟨p0, hp0, hp0t, hp0f⟩, hall⟩
            have ht0 : t0 ≤ t := le_of_lt (hp0t ▸ hlt p0 hp0)
            refine ⟨t0, ht0, hcond.2, ⟨p0, List.mem_append_left _ hp0, hp0t, hp0f⟩, ?_⟩
            intro p hp hle
            rcases List.mem_append.mp hp with h | h
            · exact hall p h hle
            · simp at h
              rw [h, ha]

/-- Closed instance on the spec's concrete scenario (pollingInterval
10s, cooldown 30s, minReplicas 0): after inactive ticks at t = 0, 10,
20 the tick at t = 30 recommends scale-to-zero with a continuous
inactive streak starting at t0 ≤ 30 spanning ≥ 30s; and an active tick
at t = 15 after the first two inactive ticks resets the streak and
reports activity immediately. -/
theorem cooldown_scale_to_zero_spec_witness :
    (0 = 0 ∧ false = false
      ∧ ∃ t0, t0 ≤ 30 ∧ 30 ≤ 30 - t0
          ∧ (∃ p ∈ [((0 : Nat), false), (10, false), (20, false)] ++ [(30, false)],
              p.1 = t0 ∧ p.2 = false)
          ∧ (∀ p ∈ [((0 : Nat), false), (10, false), (20, false)] ++ [(30, false)],
              t0 ≤ p.1 → p.2 = false))
    ∧ cooldownStep 0 30 (streakState 0 30 none [((0 : Nat), false), (10, false)]) 15 true
        = (none, { isActive := true, scaleToZero := false }) :=
  ⟨(cooldown_scale_to_zero_spec 0 30 [(0, false), (10, false), (20, false)] [] 30 false
      (by decide)).2 (by decide),
   (cooldown_scale_to_zero_spec 0 30 [(0, false), (10, false)] [] 15 true
      (by decide)).1 rfl⟩

/-- A published scaling Decision for one scaled object: the aggregate
value, the activity flag and the per-object generation counter. -/
structure Decision where
  aggregateValue : Int
  isActive : Bool
  generation : Nat
  deriving Repr, DecidableEq

/-- Modelled from the spec: each tick the Poll Loop atomically replaces
the published Decision with a new one whose generation counter is the
previous Decision's plus one (Poll Loop source absent from the
repository excerpt). -/
def publishTick (slot : Decision) (d : Int × Bool) : Decision :=
  { aggregateValue := d.1, isActive := d.2, generation := slot.generation + 1 }

/-- The ordered sequence of Decisions published over a run of ticks,
each tick carrying its (aggregateValue, isActive) payload. -/
def publishTrace (slot : Decision) : List (Int × Bool) → List Decision
  | [] => []
  | d :: ds => publishTick slot d :: publishTrace (publishTick slot d) ds

/-- The published slot after a run of ticks — the Decision a Query
Interface read returns. -/
def finalSlot (slot : Decision) (ds : List (Int × Bool)) : Decision :=
  ds.foldl publishTick slot

theorem publishTrace_length (ds : List (Int × Bool)) :
    ∀ slot : Decision, (publishTrace slot ds).length = ds.length := by
  induction ds with
  | nil => intro slot; rfl
  | cons d ds ih => intro slot; simp [publishTrace, ih]

theorem publishTrace_get (ds : List (Int × Bool)) :
    ∀ (slot : Decision) (i : Nat) (h : i < (publishTrace slot ds).length),
      ((publishTrace slot ds).get ⟨i, h⟩).generation = slot.generation + i + 1 := by
  induction ds with
  | nil => intro slot i h; simp [publishTrace] at h
  | cons d ds ih =>
      intro slot i h
      cases i with
      | zero => rfl
      | succ n =>
          have h' : n < (publishTrace (publishTick slot d) ds).length := by
            simpa [publishTrace] using h
          have hih := ih (publishTick slot d) n h'
          simp only [publishTrace, List.get_cons_succ]
          rw [hih]
          simp only [publishTick]
          omega

theorem finalSlot_generation (ds : List (Int × Bool)) :
    ∀ slot : Decision, (finalSlot slot ds).generation = slot.generation + ds.length := by
  induction ds with
  | nil => intro slot; rfl
  | cons d ds ih =>
      intro slot
      have : finalSlot slot (d :: ds) = finalSlot (publishTick slot d) ds := rfl
      rw [this, ih, publishTick]
      simp
      omega

theorem finalSlot_mem_trace (ds : List (Int × Bool)) :
    ∀ slot : Decision, ds ≠ [] → finalSlot slot ds ∈ publishTrace slot ds := by
  induction ds with
  | nil => intro slot h; exact absurd rfl h
  | cons d ds ih =>
      intro slot _
      cases ds with
      | nil => simp [finalSlot, publishTrace]
      | cons e es =>
          have : finalSlot slot (d :: e :: es) = finalSlot (publishTick slot d) (e :: es) := rfl
          rw [this]
          exact List.mem_cons_of_mem _ (ih (publishTick slot d) (by simp))

/-- C4: the generations of the Decisions published across a run of
ticks follow the exact formula previous-generation + position + 1, so
the published sequence is strictly increasing and gap-free; the slot a
Query Interface read returns carries the greatest generation of every
published Decision and is itself the latest published Decision — a
read never returns an older one. -/
theorem generation_monotone_spec (slot : Decision) (ds : List (Int × Bool)) :
    ((publishTrace slot ds).length = ds.length)
    ∧ (∀ (i : Nat) (h : i < (publishTrace slot ds).length),
        ((publishTrace slot ds).get ⟨i, h⟩).generation = slot.generation + i + 1)
    ∧ ((finalSlot slot ds).generation = slot.generation + ds.length)
    ∧ (∀ d ∈ publishTrace slot ds, d.generation ≤ (finalSlot slot ds).generation)
    ∧ (ds ≠ [] → finalSlot slot ds ∈ publishTrace slot ds) := by
  refine ⟨publishTrace_length ds slot, publishTrace_get ds slot,
    finalSlot_generation ds slot, ?_, finalSlot_mem_trace ds slot⟩
  intro d hd
  rcases List.get_of_mem hd with ⟨⟨i, hi⟩, hget⟩
  have hgen := publishTrace_get ds slot i hi
  rw [hget] at hgen
  rw [hgen, finalSlot_generation ds slot]
  have : i < ds.length := by
    rw [← publishTrace_length ds slot]
    exact hi
  omega

/-- Closed instance of the generation theorem on a three-tick run from
generation 5: the published generations are 6, 7, 8 and the final read
returns generation 8, the latest published Decision. -/
theorem generation_monotone_spec_witness :
    ((publishTrace (Decision.mk 0 false 5) [((2 : Int), true), (4, false), (1, true)]).get
        ⟨1, by decide⟩).generation = 7
    ∧ (finalSlot (Decision.mk 0 false 5)
        [((2 : Int), true), (4, false), (1, true)]).generation = 8
    ∧ finalSlot (Decision.mk 0 false 5) [((2 : Int), true), (4, false), (1, true)]
        ∈ publishTrace (Decision.mk 0 false 5) [((2 : Int), true), (4, false), (1, true)] :=
  ⟨(generation_monotone_spec (Decision.mk 0 false 5)
      [((2 : Int), true), (4, false), (1, true)]).2.1 1 (by decide),
   (generation_monotone_spec (Decision.mk 0 false 5)
      [((2 : Int), true), (4, false), (1, true)]).2.2.1,
   (generation_monotone_spec (Decision.mk 0 false 5)
      [((2 : Int), true), (4, false), (1, true)]).2.2.2.2 (by decide)⟩

/-- Severity of a surfaced condition. -/
inductive Severity where
  | warning
  | fatal
  deriving Repr, DecidableEq

/-- A condition surfaced on the scaled object's status. -/
structure Condition where
  severity : Severity
  kind : String
  deriving Repr, DecidableEq

/-- The FORMULA strategy's numeric expression grammar: arithmetic over
named trigger values. -/
inductive Expr where
  | num (n : Int)
  | var (name : String)
  | add (a b : Expr)
  | sub (a b : Expr)
  | mul (a b : Expr)
  deriving Repr, DecidableEq

/-- The trigger names an expression references. -/
def Expr.refs : Expr → List String
  | .num _ => []
  | .var s => [s]
  | .add a b => a.refs ++ b.refs
  | .sub a b => a.refs ++ b.refs
  | .mul a b => a.refs ++ b.refs

/-- Modelled from the spec: the sandboxed formula evaluator over named
trigger values (formula evaluator source absent from the repository
excerpt). The environment is partial — a trigger that errored with no
fallback substitute has no value — and evaluation returns nothing as
soon as any referenced name has no value. -/
def evalFormula (env : String → Option Int) : Expr → Option Int
  | .num n => some n
  | .var s => env s
  | .add a b =>
      match evalFormula env a, evalFormula env b with
      | some x, some y => some (x + y)
      | _, _ => none
  | .sub a b =>
      match evalFormula env a, evalFormula env b with
      | some x, some y => some (x - y)
      | _, _ => none
  | .mul a b =>
      match evalFormula env a, evalFormula env b with
      | some x, some y => some (x * y)
      | _, _ => none

/-- What one FORMULA-strategy tick publishes: the decision payload and
the conditions recorded for the tick. -/
structure FormulaOutcome where
  aggregateValue : Int
  isActive : Bool
  conditions : List Condition
  deriving Repr, DecidableEq

/-- Modelled from the spec: one FORMULA-strategy Aggregator tick (engine
source absent from the repository excerpt). A successful evaluation
publishes the formula result with isActive = (result > 0); a failed
evaluation fails closed — the previous Decision's aggregateValue is
reused, isActive is forced false, and a warning-level evaluation-error
condition is recorded. The tick is a total function: it always returns
an outcome. -/
def formulaTick (prevValue : Int) (env : String → Option Int) (e : Expr) :
    FormulaOutcome :=
  match evalFormula env e with
  | some v =>
      { aggregateValue := v, isActive := decide (0 < v), conditions := [] }
  | none =>
      { aggregateValue := prevValue, isActive := false,
        conditions := [{ severity := .warning, kind := "EvaluationError" }] }

theorem evalFormula_none_of_missing (env : String → Option Int) (name : String)
    (hmiss : env name = none) :
    ∀ e : Expr, name ∈ e.refs → evalFormula env e = none := by
  intro e
  induction e with
  | num n => intro h; simp [Expr.refs] at h
  | var s =>
      intro h
      simp [Expr.refs] at h
      subst h
      exact hmiss
  | add a b iha ihb =>
      intro h
      rcases List.mem_append.mp (by simpa [Expr.refs] using h) with h' | h'
      · simp [evalFormula, iha h']
      · rcases ha : evalFormula env a with _ | va <;> simp [evalFormula, ha, ihb h']
  | sub a b iha ihb =>
      intro h
      rcases List.mem_append.mp (by simpa [Expr.refs] using h) with h' | h'
      · simp [evalFormula, iha h']
      · rcases ha : evalFormula env a with _ | va <;> simp [evalFormula, ha, ihb h']
  | mul a b iha ihb =>
      intro h
      rcases List.mem_append.mp (by simpa [Expr.refs] using h) with h' | h'
      · simp [evalFormula, iha h']
      · rcases ha : evalFormula env a with _ | va <;> simp [evalFormula, ha, ihb h']

/-- C5: whenever some trigger name referenced by the formula has no
value that tick, the FORMULA tick fails closed: it returns (it does
not crash) an outcome that reuses the previous Decision's
aggregateValue, forces isActive to false, and records a warning-level
evaluation-error condition. -/
theorem formula_fails_closed_spec (prevValue : Int) (env : String → Option Int)
    (e : Expr) (name : String) (hmem : name ∈ e.refs) (hmiss : env name = none) :
    formulaTick prevValue env e =
      { aggregateValue := prevValue, isActive := false,
        conditions := [{ severity := .warning, kind := "EvaluationError" }] } := by
  have h := evalFormula_none_of_missing env name hmiss e hmem
  simp [formulaTick, h]

/-- Closed instance on the spec's concrete scenario: formula `a + b`,
trigger `a` errored with no fallback while `b` reads 4, previous
aggregateValue 7 — the tick keeps 7, forces isActive false, and records
the warning-level evaluation-error condition. -/
theorem formula_fails_closed_spec_witness :
    formulaTick 7 (fun s => if s = "b" then some 4 else none)
        (.add (.var "a") (.var "b")) =
      { aggregateValue := 7, isActive := false,
        conditions := [{ severity := .warning, kind := "EvaluationError" }] } :=
  formula_fails_closed_spec 7 (fun s => if s = "b" then some 4 else none)
    (.add (.var "a") (.var "b")) "a" (by simp [Expr.refs]) (by simp)

/-- A trigger's configuration: the type tag selecting the capability
implementation and the opaque metadata mapping. Two TriggerSpecs are
equivalent iff both fields are deeply equal; equivalence governs cache
reuse, so the content hash is modelled as the spec content itself
(a collision-free hash). -/
structure TriggerSpec where
  typeTag : String
  metadata : List (String × String)
  deriving Repr, DecidableEq

/-- The typed error the Scaler Cache returns when the capability
factory fails. -/
inductive CacheError where
  | constructionFailed (typeTag : String)
  deriving Repr, DecidableEq

/-- One trigger slot of a scaled object's Scaler Cache: the cached
entry (the stored TriggerSpec content standing for its hash, plus the
live capability instance's identity), the identity the next
construction will allocate, and the identities of every closed
instance. -/
structure CacheState where
  entry : Option (TriggerSpec × Nat)
  nextId : Nat
  closed : List Nat
  deriving Repr, DecidableEq

/-- The cache before any Get. -/
def initCacheState : CacheState := { entry := none, nextId := 0, closed := [] }

/-- Instance identities the cache hands out are always below the
allocation counter. -/
def CacheWF (st : CacheState) : Prop :=
  ∀ s id, st.entry = some (s, id) → id < st.nextId

namespace ScalerCache

/-- Modelled from the spec: `Get(triggerSpec) → CachedTrigger` (Scaler
Cache source absent from the repository excerpt). Returns the existing
entry if its stored content hash matches the requested spec; otherwise
closes the stale entry and constructs a new instance via the factory —
returning a typed error and caching nothing when construction fails.
`canConstruct` stands for the factory's success on a given spec. -/
def Get (canConstruct : TriggerSpec → Bool) (st : CacheState) (spec : TriggerSpec) :
    CacheState × Except CacheError Nat :=
  match st.entry with
  | some (s, id) =>
      if s = spec then (st, .ok id)
      else if canConstruct spec then
        ({ entry := some (spec, st.nextId), nextId := st.nextId + 1,
           closed := id :: st.closed }, .ok st.nextId)
      else
        ({ entry := none, nextId := st.nextId, closed := id :: st.closed },
          .error (.constructionFailed spec.typeTag))
  | none =>
      if canConstruct spec then
        ({ entry := some (spec, st.nextId), nextId := st.nextId + 1,
           closed := st.closed }, .ok st.nextId)
      else
        ({ st with entry := none }, .error (.constructionFailed spec.typeTag))

end ScalerCache

/-- C6: on a well-formed cache, `Get` with the cached spec unchanged
returns the same capability instance and leaves the cache untouched
(so every further call keeps returning it); immediately after the
TriggerSpec changes (different type tag or any metadata field), `Get`
returns a strictly different instance and records the old one as
closed; when the entry does not match and construction fails, the
typed construction error is returned and no entry is cached;
well-formedness is preserved. -/
theorem scaler_cache_get_spec (f : TriggerSpec → Bool) (st : CacheState)
    (spec s : TriggerSpec) (id : Nat) (hwf : CacheWF st) :
    (st.entry = some (spec, id) → ScalerCache.Get f st spec = (st, .ok id))
    ∧ (st.entry = some (s, id) → s ≠ spec → f spec = true →
        (ScalerCache.Get f st spec).2 = .ok st.nextId
        ∧ st.nextId ≠ id
        ∧ id ∈ (ScalerCache.Get f st spec).1.closed
        ∧ (ScalerCache.Get f st spec).1.entry = some (spec, st.nextId))
    ∧ ((∀ id0, st.entry ≠ some (spec, id0)) → f spec = false →
        (ScalerCache.Get f st spec).2 = .error (.constructionFailed spec.typeTag)
        ∧ (ScalerCache.Get f st spec).1.entry = none)
    ∧ CacheWF (ScalerCache.Get f st spec).1 := by
  refine ⟨?_, ?_, ?_, ?_⟩
  · intro h
    simp [ScalerCache.Get, h]
  · intro h hne hc
    have hid := hwf s id h
    refine ⟨?_, by omega, ?_, ?_⟩ <;> simp [ScalerCache.Get, h, hne, hc]
  · intro hnm hf
    cases he : st.entry with
    | none => constructor <;> simp [ScalerCache.Get, he, hf]
    | some p =>
        obtain ⟨s', id'⟩ := p
        have hse : s' ≠ spec := by
          intro hx
          exact hnm id' (by rw [he, hx])
        constructor <;> simp [ScalerCache.Get, he, hse, hf]
  · cases he : st.entry with
    | none =>
        by_cases hc : f spec = true
        · intro s2 id2 h2
          simp [ScalerCache.Get, he, hc] at h2 ⊢
          omega
        · intro s2 id2 h2
          simp [ScalerCache.Get, he, hc] at h2
    | some p =>
        obtain ⟨s', id'⟩ := p
        by_cases hse : s' = spec
        · intro s2 id2 h2
          have hred : (ScalerCache.Get f st spec).1 = st := by
            simp [ScalerCache.Get, he, hse]
          rw [hred] at h2 ⊢
          exact hwf s2 id2 h2
        · by_cases hc : f spec = true
          · intro s2 id2 h2
            have hred : (ScalerCache.Get f st spec).1 =
                { entry := some (spec, st.nextId), nextId := st.nextId + 1,
                  closed := id' :: st.closed } := by
              simp [ScalerCache.Get, he, hse, hc]
            rw [hred] at h2 ⊢
            simp at h2
            obtain ⟨h2a, h2b⟩ := h2
            show id2 < st.nextId + 1
            omega
          · intro s2 id2 h2
            simp [ScalerCache.Get, he, hse, hc] at h2

/-- Closed instance of the cache theorem: with the entry holding
instance 0 built from spec ("azure-queue", q=1) and the allocation
counter at 1, a Get with the unchanged spec returns instance 0 and
leaves the cache untouched; after the metadata changes to q=2, Get
returns instance 1 with instance 0 closed; and a spec whose type tag
the factory rejects yields the typed construction error with nothing
cached. -/
theorem scaler_cache_get_spec_witness :
    (ScalerCache.Get (fun sp => decide (sp.typeTag = "azure-queue"))
        (CacheState.mk (some (TriggerSpec.mk "azure-queue" [("q", "1")], 0)) 1 [])
        (TriggerSpec.mk "azure-queue" [("q", "1")])
      = (CacheState.mk (some (TriggerSpec.mk "azure-queue" [("q", "1")], 0)) 1 [], .ok 0))
    ∧ ((ScalerCache.Get (fun sp => decide (sp.typeTag = "azure-queue"))
          (CacheState.mk (some (TriggerSpec.mk "azure-queue" [("q", "1")], 0)) 1 [])
          (TriggerSpec.mk "azure-queue" [("q", "2")])).2 = .ok 1
        ∧ (1 : Nat) ≠ 0
        ∧ 0 ∈ (ScalerCache.Get (fun sp => decide (sp.typeTag = "azure-queue"))
            (CacheState.mk (some (TriggerSpec.mk "azure-queue" [("q", "1")], 0)) 1 [])
            (TriggerSpec.mk "azure-queue" [("q", "2")])).1.closed
        ∧ (ScalerCache.Get (fun sp => decide (sp.typeTag = "azure-queue"))
            (CacheState.mk (some (TriggerSpec.mk "azure-queue" [("q", "1")], 0)) 1 [])
            (TriggerSpec.mk "azure-queue" [("q", "2")])).1.entry
          = some (TriggerSpec.mk "azure-queue" [("q", "2")], 1))
    ∧ ((ScalerCache.Get (fun sp => decide (sp.typeTag = "azure-queue"))
          (CacheState.mk (some (TriggerSpec.mk "azure-queue" [("q", "1")], 0)) 1 [])
          (TriggerSpec.mk "unknown" [])).2
        = .error (.constructionFailed "unknown")
        ∧ (ScalerCache.Get (fun sp => decide (sp.typeTag = "azure-queue"))
            (CacheState.mk (some (TriggerSpec.mk "azure-queue" [("q", "1")], 0)) 1 [])
            (TriggerSpec.mk "unknown" [])).1.entry = none) := by
  have hwf : CacheWF
      (CacheState.mk (some (TriggerSpec.mk "azure-queue" [("q", "1")], 0)) 1 []) := by
    intro s id h
    injection h with h'
    injection h' with ha hb
    show id < 1
    omega
  refine ⟨?_, ?_, ?_⟩
  · exact (scaler_cache_get_spec (fun sp => decide (sp.typeTag = "azure-queue"))
      _ (TriggerSpec.mk "azure-queue" [("q", "1")])
      (TriggerSpec.mk "azure-queue" [("q", "1")]) 0 hwf).1 rfl
  · exact (scaler_cache_get_spec (fun sp => decide (sp.typeTag = "azure-queue"))
      _ (TriggerSpec.mk "azure-queue" [("q", "2")])
      (TriggerSpec.mk "azure-queue" [("q", "1")]) 0 hwf).2.1 rfl (by decide) (by decide)
  · exact (scaler_cache_get_spec (fun sp => decide (sp.typeTag = "azure-queue"))
      _ (TriggerSpec.mk "unknown" [])
      (TriggerSpec.mk "azure-queue" [("q", "1")]) 0 hwf).2.2.1
      (by intro id0 h; injection h with h'; injection h' with ha hb; exact absurd ha (by decide))
      (by decide)

/-- Association lookup by scaled-object id or metric name. -/
def lookupStr {α : Type} : List (String × α) → String → Option α
  | [], _ => none
  | (k, v) :: rest, key => if k = key then some v else lookupStr rest key

/-- What the engine publishes per scaled object for the Query
Interface: the current Decision's per-trigger breakdown, its timestamp
and the object's polling interval. -/
structure ObjectRecord where
  breakdown : List (String × Int)
  computedAt : Nat
  pollingIntervalSeconds : Nat
  deriving Repr, DecidableEq

/-- The engine's published state across scaled objects. -/
structure EngineState where
  objects : List (String × ObjectRecord)
  deriving Repr, DecidableEq

/-- The Query Interface's error taxonomy entry: unknown scaled object
or metric name. -/
inductive QueryError where
  | notFound
  deriving Repr, DecidableEq

/-- A successful metric read: the value, the Decision's timestamp, and
whether a stale warning condition accompanies the value. -/
structure MetricReading where
  value : Int
  timestamp : Nat
  staleWarning : Bool
  deriving Repr, DecidableEq

/-- Modelled from the spec: `GetMetricValue(scaledObjectID, metricName)
→ (value, timestamp, error)` (Query Interface source absent from the
repository excerpt). It reads the current published Decision's
perTriggerBreakdown only — the returned engine state is the input
state, no poll is triggered; an unknown scaled object or metric name
is a not-found error; a Decision older than 2 × pollingIntervalSeconds
yields a stale warning flag on a successful reading, not an error. -/
def GetMetricValue (st : EngineState) (objId metricName : String) (now : Nat) :
    EngineState × Except QueryError MetricReading :=
  match lookupStr st.objects objId with
  | none => (st, .error .notFound)
  | some r =>
      match lookupStr r.breakdown metricName with
      | none => (st, .error .notFound)
      | some v =>
          (st, .ok { value := v, timestamp := r.computedAt,
                     staleWarning :=
                       decide (2 * r.pollingIntervalSeconds < now - r.computedAt) })

/-- C7: a GetMetricValue call returns the engine state unchanged — it
never performs or triggers a poll; it returns the not-found error
exactly when the scaled object or the metric name is unknown; and on a
found metric it succeeds (never errors) with the published value and
timestamp, the stale warning flag set exactly when the Decision's
timestamp is older than 2 × pollingIntervalSeconds. -/
theorem getMetricValue_spec (st : EngineState) (objId metricName : String) (now : Nat) :
    ((GetMetricValue st objId metricName now).1 = st)
    ∧ ((GetMetricValue st objId metricName now).2 = .error .notFound ↔
        lookupStr st.objects objId = none
        ∨ ∃ r, lookupStr st.objects objId = some r
            ∧ lookupStr r.breakdown metricName = none)
    ∧ (∀ r v, lookupStr st.objects objId = some r →
        lookupStr r.breakdown metricName = some v →
        (GetMetricValue st objId metricName now).2 =
          .ok { value := v, timestamp := r.computedAt,
                staleWarning :=
                  decide (2 * r.pollingIntervalSeconds < now - r.computedAt) }) := by
  refine ⟨?_, ?_, ?_⟩
  · cases ho : lookupStr st.objects objId with
    | none => simp [GetMetricValue, ho]
    | some r =>
        cases hm : lookupStr r.breakdown metricName with
        | none => simp [GetMetricValue, ho, hm]
        | some v => simp [GetMetricValue, ho, hm]
  · cases ho : lookupStr st.objects objId with
    | none => simp [GetMetricValue, ho]
    | some r =>
        cases hm : lookupStr r.breakdown metricName with
        | none => simp [GetMetricValue, ho, hm]
        | some v => simp [GetMetricValue, ho, hm]
  · intro r v ho hm
    simp [GetMetricValue, ho, hm]

/-- Closed instance of the query theorem: one scaled object "app"
publishing metric "qlen" = 5 computed at t = 0 with a 10 s polling
interval. Read at now = 100: the state is unchanged and the read
succeeds with value 5 and the stale warning set (100 − 0 > 2 × 10); a
read of the unknown object "ghost" is the not-found error. -/
theorem getMetricValue_spec_witness :
    ((GetMetricValue
        (EngineState.mk [("app", ObjectRecord.mk [("qlen", 5)] 0 10)])
        "app" "qlen" 100).1
      = EngineState.mk [("app", ObjectRecord.mk [("qlen", 5)] 0 10)])
    ∧ ((GetMetricValue
        (EngineState.mk [("app", ObjectRecord.mk [("qlen", 5)] 0 10)])
        "app" "qlen" 100).2
      = .ok { value := 5, timestamp := 0, staleWarning := true })
    ∧ ((GetMetricValue
        (EngineState.mk [("app", ObjectRecord.mk [("qlen", 5)] 0 10)])
        "ghost" "qlen" 100).2 = .error .notFound) :=
  ⟨(getMetricValue_spec
      (EngineState.mk [("app", ObjectRecord.mk [("qlen", 5)] 0 10)]) "app" "qlen" 100).1,
   by
    have h := (getMetricValue_spec
      (EngineState.mk [("app", ObjectRecord.mk [("qlen", 5)] 0 10)]) "app" "qlen" 100).2.2
      (ObjectRecord.mk [("qlen", 5)] 0 10) 5 (by decide) (by decide)
    rw [h]
    rfl,
   (getMetricValue_spec
      (EngineState.mk [("app", ObjectRecord.mk [("qlen", 5)] 0 10)]) "ghost" "qlen" 100).2.1.mpr
      (Or.inl (by decide))⟩

namespace azure

/-- The Azure queue GetProperties response: the service-reported
approximate message count. -/
structure QueueProps where
  approximateMessagesCount : Int
  deriving Repr, DecidableEq

/-- The external calls GetAzureQueueLength performs, each modelled by
its outcome: connection parsing, the queue-properties request, and the
peek of up to maxCount messages (returning how many visible messages
were obtained). -/
structure QueueEnv where
  parseConnection : Except String Unit
  getProperties : Except String QueueProps
  peek : Int → Except String Int

/-- Embedded from src/pkg/scalers/azure/azure_queue.go,
`getVisibleCount`: peeks up to maxCount messages and returns the
number obtained, or 0 alongside the error when the peek fails. -/
def getVisibleCount (env : QueueEnv) (maxCount : Int) : Int × Option String :=
  match env.peek maxCount with
  | .error e => (0, some e)
  | .ok n => (n, none)

/-- Embedded from src/pkg/scalers/azure/azure_queue.go,
`GetAzureQueueLength`: parses the storage connection, fetches the
queue properties, then peeks up to 32 messages; any failure returns
(−1, the error); on success it returns the visible message count,
except that exactly 32 visible messages yield the queue's approximate
message count instead. -/
def GetAzureQueueLength (env : QueueEnv) : Int × Option String :=
  match env.parseConnection with
  | .error e => (-1, some e)
  | .ok _ =>
    match env.getProperties with
    | .error e => (-1, some e)
    | .ok props =>
      match getVisibleCount env 32 with
      | (_, some e) => (-1, some e)
      | (visibleMessageCount, none) =>
          if visibleMessageCount = 32 then (props.approximateMessagesCount, none)
          else (visibleMessageCount, none)

end azure

/-- C9: GetAzureQueueLength returns −1 together with the error
whenever connection parsing, the properties request, or the message
peek fails; when all three succeed it returns the peeked visible count
with no error, except that exactly 32 peeked messages yield the
queue's ApproximateMessagesCount instead. -/
theorem getAzureQueueLength_spec (env : azure.QueueEnv) :
    (∀ e, env.parseConnection = .error e →
        azure.GetAzureQueueLength env = (-1, some e))
    ∧ (∀ e, env.parseConnection = .ok () → env.getProperties = .error e →
        azure.GetAzureQueueLength env = (-1, some e))
    ∧ (∀ e props, env.parseConnection = .ok () → env.getProperties = .ok props →
        env.peek 32 = .error e →
        azure.GetAzureQueueLength env = (-1, some e))
    ∧ (∀ props n, env.parseConnection = .ok () → env.getProperties = .ok props →
        env.peek 32 = .ok n →
        azure.GetAzureQueueLength env =
          (if n = 32 then props.approximateMessagesCount else n, none)) := by
  refine ⟨?_, ?_, ?_, ?_⟩
  · intro e h
    simp [azure.GetAzureQueueLength, h]
  · intro e hp h
    simp [azure.GetAzureQueueLength, hp, h]
  · intro e props hp hg h
    simp [azure.GetAzureQueueLength, azure.getVisibleCount, hp, hg, h]
  · intro props n hp hg h
    simp only [azure.GetAzureQueueLength, azure.getVisibleCount, hp, hg, h]
    split <;> rfl

/-- Closed instances of the queue-length theorem: a queue whose peek
obtains 5 visible messages returns 5; one whose peek obtains the full
32 returns the approximate count 250; a failing properties request
returns −1 with the error. -/
theorem getAzureQueueLength_spec_witness :
    azure.GetAzureQueueLength
        (azure.QueueEnv.mk (.ok ()) (.ok (azure.QueueProps.mk 250)) (fun _ => .ok 5))
      = (5, none)
    ∧ azure.GetAzureQueueLength
        (azure.QueueEnv.mk (.ok ()) (.ok (azure.QueueProps.mk 250)) (fun _ => .ok 32))
      = (250, none)
    ∧ azure.GetAzureQueueLength
        (azure.QueueEnv.mk (.ok ()) (.error "auth failed") (fun _ => .ok 5))
      = (-1, some "auth failed") := by
  refine ⟨?_, ?_, ?_⟩
  · have h := (getAzureQueueLength_spec
      (azure.QueueEnv.mk (.ok ()) (.ok (azure.QueueProps.mk 250))
        (fun _ => .ok 5))).2.2.2 (azure.QueueProps.mk 250) 5 rfl rfl rfl
    rw [h]
    rfl
  · have h := (getAzureQueueLength_spec
      (azure.QueueEnv.mk (.ok ()) (.ok (azure.QueueProps.mk 250))
        (fun _ => .ok 32))).2.2.2 (azure.QueueProps.mk 250) 32 rfl rfl rfl
    rw [h]
    rfl
  · exact (getAzureQueueLength_spec
      (azure.QueueEnv.mk (.ok ()) (.error "auth failed")
        (fun _ => .ok 5))).2.1 "auth failed" rfl rfl

namespace awsCloudwatchScaler

/-- One CloudWatch MetricDataResult: its list of data-point values. -/
structure MetricDataResult where
  values : List Int
  deriving Repr, DecidableEq

/-- Modelled from the spec: `awsCloudwatchScaler.GetMetrics` is absent
from the repository excerpt; only its unit test
(src/pkg/scalers/aws_cloudwatch_test.go, TestAWSCloudwatchScalerGetMetrics
with mockCloudwatch.GetMetricData) is present. Following the test's
asserted behaviour: the scaler issues one GetMetricData call and
propagates its error; a successful response with an empty
MetricDataResults list is not treated as a failure; otherwise the
first result's first value is the returned metric value. -/
def GetMetrics (resp : Except String (List MetricDataResult)) : Except String Int :=
  match resp with
  | .error e => .error e
  | .ok [] => .ok 0
  | .ok (r :: _) => .ok (r.values.headD 0)

end awsCloudwatchScaler

/-- C10: GetMetrics returns an error exactly when the underlying
GetMetricData call failed — the error is the propagated API error;
an empty MetricDataResults list from a successful call yields no
error; and a non-empty result list yields its first value. -/
theorem cloudwatch_getMetrics_spec
    (resp : Except String (List awsCloudwatchScaler.MetricDataResult)) :
    ((∃ e, awsCloudwatchScaler.GetMetrics resp = .error e) ↔ (∃ e, resp = .error e))
    ∧ (∀ e, resp = .error e → awsCloudwatchScaler.GetMetrics resp = .error e)
    ∧ (resp = .ok [] → awsCloudwatchScaler.GetMetrics resp = .ok 0)
    ∧ (∀ r rest, resp = .ok (r :: rest) →
        awsCloudwatchScaler.GetMetrics resp = .ok (r.values.headD 0)) := by
  refine ⟨?_, ?_, ?_, ?_⟩
  · constructor
    · rintro ⟨e, he⟩
      cases resp with
      | error e' => exact ⟨e', rfl⟩
      | ok results =>
          cases results <;> simp [awsCloudwatchScaler.GetMetrics] at he
    · rintro ⟨e, he⟩
      rw [he]
      exact ⟨e, rfl⟩
  · intro e h
    rw [h]
    rfl
  · intro h
    rw [h]
    rfl
  · intro r rest h
    rw [h]
    rfl

/-- Closed instances of the GetMetrics theorem matching the unit
test's three mocked responses: the API error "error" is propagated; an
empty MetricDataResults list is not an error; a result holding value
10 returns 10. -/
theorem cloudwatch_getMetrics_spec_witness :
    awsCloudwatchScaler.GetMetrics (.error "error") = .error "error"
    ∧ awsCloudwatchScaler.GetMetrics (.ok []) = .ok 0
    ∧ awsCloudwatchScaler.GetMetrics
        (.ok [awsCloudwatchScaler.MetricDataResult.mk [10]]) = .ok 10 :=
  ⟨(cloudwatch_getMetrics_spec (.error "error")).2.1 "error" rfl,
   (cloudwatch_getMetrics_spec (.ok [])).2.2.1 rfl,
   (cloudwatch_getMetrics_spec
      (.ok [awsCloudwatchScaler.MetricDataResult.mk [10]])).2.2.2
      (awsCloudwatchScaler.MetricDataResult.mk [10]) [] rfl⟩

end Keda
